import Mathlib

/-!
Verification of the MyTaskit task-store core (src/todo.py).

The Python data model (the `Task` and `Group` dataclasses), the view
computation (`TodoApp._get_current_tasks` and `TodoApp._get_ordered_tasks`),
the store operations (`action_add_task`, `action_edit_task`,
`action_delete_task`, `action_toggle_done`, `action_new_group`,
`_rename_group`, `_delete_group`, `action_prev_group`, `action_next_group`,
`action_search`) and the persistence layer (`save_data` and `load_data`) are
embedded shallowly below.  Python integers are unbounded, so ids and counters
are modelled as `Int`; the JSON document is modelled by the inductive
`JValue`, with `json.dumps` and `json.loads` treated as mutually inverse on
documents (which they are for the object/array/int/string/bool/null values
this program writes and reads).
-/

namespace Todo

/-- The `Task` dataclass (src/todo.py lines 28-39).  Construction together
with `Task.__post_init__` is `mkTask` below. -/
structure Task where
  id : Int
  text : String
  done : Bool
  created_at : String
  group_id : Option Int
deriving DecidableEq

/-- The `Group` dataclass (src/todo.py lines 42-46). -/
structure Group where
  id : Int
  name : String
deriving DecidableEq

/-- Construction `Task(...)` including `Task.__post_init__` (lines 37-39):
an empty `created_at` is replaced by the current-time stamp `now`
(in Python `datetime.now().strftime("%d/%m %H:%M")`, never empty). -/
def mkTask (id : Int) (text : String) (done : Bool) (created_at : String)
    (group_id : Option Int) (now : String) : Task :=
  { id := id, text := text, done := done,
    created_at := if created_at = "" then now else created_at,
    group_id := group_id }

/-- Method `TodoApp._get_current_tasks` (lines 669-674): the tasks of the
current group; the `None` view shows exactly the tasks with no group. -/
def get_current_tasks (tasks : List Task) (current_group_id : Option Int) :
    List Task :=
  match current_group_id with
  | none => tasks.filter (fun t => t.group_id == none)
  | some gid => tasks.filter (fun t => t.group_id == some gid)

/-- Method `TodoApp._get_ordered_tasks` (lines 726-731): current tasks,
pending first, then completed. -/
def get_ordered_tasks (tasks : List Task) (current_group_id : Option Int) :
    List Task :=
  let current := get_current_tasks tasks current_group_id
  let pending := current.filter (fun t => !t.done)
  let completed := current.filter (fun t => t.done)
  pending ++ completed

/-- The store state held by `TodoApp.__init__` (lines 611-620): the task
list, the group list, the two id counters, the selected index and the
current group view. -/
structure AppState where
  tasks : List Task
  groups : List Group
  next_task_id : Int
  next_group_id : Int
  selected_index : Nat
  current_group_id : Option Int
deriving DecidableEq

/-- The state of `TodoApp.__init__` before `load_data` runs (lines
611-618); also the state after a failed load. -/
def freshState : AppState :=
  { tasks := [], groups := [], next_task_id := 1, next_group_id := 1,
    selected_index := 0, current_group_id := none }

/-- A JSON document.  `json.dumps` and `json.loads` are mutually inverse
on the documents this program writes and reads, so the file layer is the
identity on `JValue` and `load_data` consumes the parsed document
directly. -/
inductive JValue where
  | null : JValue
  | bool (b : Bool) : JValue
  | num (n : Int) : JValue
  | str (s : String) : JValue
  | arr (elems : List JValue) : JValue
  | obj (fields : List (String × JValue)) : JValue

/-- Dictionary lookup `o[k]` / `o.get(k)` on a JSON object, as an
association-list lookup (the objects `save_data` writes have distinct
keys). -/
def jget (fields : List (String × JValue)) (k : String) : Option JValue :=
  (fields.find? (fun p => p.1 == k)).map (fun p => p.2)

def asInt : JValue → Option Int
  | .num n => some n
  | _ => none

def asStr : JValue → Option String
  | .str s => some s
  | _ => none

def asBool : JValue → Option Bool
  | .bool b => some b
  | _ => none

/-- Reading `t.get("group_id")`: a JSON `null` and an absent key both
give `None`.  Python performs no type check on present leaves; the
decoders assume the leaves carry the JSON types of the file format of
section 6 (a document violating the object/array shape raises in Python
and is likewise mapped to the failure branch here). -/
def asOptInt : JValue → Option (Option Int)
  | .null => some none
  | .num n => some (some n)
  | _ => none

/-- One group record as written by `save_data` (lines 1019-1022). -/
def encodeGroup (g : Group) : JValue :=
  .obj [("id", .num g.id), ("name", .str g.name)]

/-- One task record as written by `save_data` (lines 1023-1032). -/
def encodeTask (t : Task) : JValue :=
  .obj [("id", .num t.id), ("text", .str t.text), ("done", .bool t.done),
        ("created_at", .str t.created_at),
        ("group_id", match t.group_id with
                     | none => .null
                     | some gid => .num gid)]

/-- Method `TodoApp.save_data` (lines 1014-1037): the JSON document
written to disk (the `try`/`except` around the file write swallows write
failures and does not affect the document). -/
def save_data (s : AppState) : JValue :=
  .obj [("next_task_id", .num s.next_task_id),
        ("next_group_id", .num s.next_group_id),
        ("groups", .arr (s.groups.map encodeGroup)),
        ("tasks", .arr (s.tasks.map encodeTask))]

/-- Reading `Group(id=g["id"], name=g["name"])` (lines 1047-1050): a
missing key raises `KeyError`, which the surrounding `except` turns into
the reset state (`none` here). -/
def decodeGroup (v : JValue) : Option Group :=
  match v with
  | .obj o => do
    let id ← jget o "id" >>= asInt
    let name ← jget o "name" >>= asStr
    some { id := id, name := name }
  | _ => none

/-- Reading `Task(id=t["id"], text=t["text"], done=t.get("done", False),
created_at=t.get("created_at", ""), group_id=t.get("group_id"))`
(lines 1052-1061), including `__post_init__` via `mkTask`. -/
def decodeTask (v : JValue) (now : String) : Option Task :=
  match v with
  | .obj o => do
    let id ← jget o "id" >>= asInt
    let text ← jget o "text" >>= asStr
    let done ← match jget o "done" with
               | none => some false
               | some w => asBool w
    let created_at ← match jget o "created_at" with
                     | none => some ""
                     | some w => asStr w
    let group_id ← match jget o "group_id" with
                   | none => some none
                   | some w => asOptInt w
    some (mkTask id text done created_at group_id now)
  | _ => none

/-- A list comprehension over a JSON array: any element failing to decode
raises, discarding the whole load. -/
def decodeList {α : Type} (f : JValue → Option α) : List JValue → Option (List α)
  | [] => some []
  | v :: vs => do
    let a ← f v
    let rest ← decodeList f vs
    some (a :: rest)

/-- Iterating `data.get(key, [])`: an absent key yields the empty list, a
non-array value raises. -/
def decodeEntries {α : Type} (f : JValue → Option α) : Option JValue → Option (List α)
  | none => some []
  | some (.arr vs) => decodeList f vs
  | some _ => none

/-- The four fields `load_data` assigns (lines 1044-1061). -/
structure StoreData where
  tasks : List Task
  groups : List Group
  next_task_id : Int
  next_group_id : Int
deriving DecidableEq

/-- Reading `data.get(key, 1)` as a counter: an absent key defaults
to 1. -/
def decodeCounter (o : List (String × JValue)) (k : String) : Option Int :=
  match jget o k with
  | none => some 1
  | some w => asInt w

/-- The body of `load_data`'s `try` block on a parsed top-level
object. -/
def decodeObj (o : List (String × JValue)) (now : String) : Option StoreData := do
  let next_task_id ← decodeCounter o "next_task_id"
  let next_group_id ← decodeCounter o "next_group_id"
  let groups ← decodeEntries decodeGroup (jget o "groups")
  let tasks ← decodeEntries (fun v => decodeTask v now) (jget o "tasks")
  some { tasks := tasks, groups := groups,
         next_task_id := next_task_id, next_group_id := next_group_id }

/-- The body of `load_data`'s `try` block on a parsed document: `none` is
the exception path (a non-object document raises on `data.get`). -/
def decodeDoc (doc : JValue) (now : String) : Option StoreData :=
  match doc with
  | .obj o => decodeObj o now
  | _ => none

/-- Method `TodoApp.load_data` (lines 1039-1066) on an existing file
whose parsed content is `doc`: any exception inside the `try` block resets
the whole state to empty with both counters at 1. -/
def load_data (doc : JValue) (now : String) : StoreData :=
  match decodeDoc doc now with
  | some sd => sd
  | none => { tasks := [], groups := [], next_task_id := 1, next_group_id := 1 }

/-- Python's `s.strip()`: the string without its leading and trailing
whitespace.  Every action runs its free-text input through
`InputModal.on_save` (lines 202-206), which strips it and dismisses with
`None` when the stripped text is empty; the `if result:` guards in the
action callbacks turn that into a no-op. -/
def pyStrip (s : String) : String :=
  String.mk
    (((s.toList.dropWhile Char.isWhitespace).reverse.dropWhile
        Char.isWhitespace).reverse)

/-- Method `TodoApp._update_selection_after_refresh` (lines 710-724),
selection part: index 0 on an empty view, otherwise clamped to the view's
range.  Mutating actions end with `refresh_task_list`, which applies
this. -/
def clampSelection (s : AppState) : AppState :=
  let ordered := get_ordered_tasks s.tasks s.current_group_id
  if ordered.isEmpty then { s with selected_index := 0 }
  else { s with selected_index := min s.selected_index (ordered.length - 1) }

/-- Method `TodoApp.get_selected_task_widget` (lines 765-774): the task
at the selected index of the ordered view, if any. -/
def get_selected_task (s : AppState) : Option Task :=
  (get_ordered_tasks s.tasks s.current_group_id).get? s.selected_index

/-- Method `TodoApp.action_add_task` (lines 926-952) with modal input
`input` entered and saved; `now` is the creation timestamp.  The new task
joins the current group; the selection moves to the last pending task of
the view (the pending list is non-empty, the new task being in it, so the
truncated subtraction agrees with Python). -/
def action_add_task (s : AppState) (input now : String) : AppState :=
  let result := pyStrip input
  if result = "" then s
  else
    let task := mkTask s.next_task_id result false "" s.current_group_id now
    let tasks := s.tasks ++ [task]
    let current := get_current_tasks tasks s.current_group_id
    let pending := current.filter (fun t => !t.done)
    clampSelection
      { s with tasks := tasks, next_task_id := s.next_task_id + 1,
               selected_index := pending.length - 1 }

/-- Method `TodoApp.action_edit_task` (lines 954-968) with modal input
`input`: the selected task's text is replaced when the stripped input is
non-empty, otherwise nothing changes.  Python mutates the shared task
object through `TaskWidget.update_text` (lines 131-135); with unique ids
(which hold in every reachable state) this equals the update-by-id map
used here. -/
def action_edit_task (s : AppState) (input : String) : AppState :=
  match get_selected_task s with
  | none => s
  | some task =>
    let result := pyStrip input
    if result = "" then s
    else
      { s with tasks := s.tasks.map (fun t =>
          if t.id = task.id then { t with text := result } else t) }

/-- Method `TodoApp.action_delete_task` (lines 970-988), confirmed.
Python indexes `ordered[self.selected_index]` directly after an emptiness
check; in every reachable state the index is within range whenever the
view is non-empty, and `get?` coincides with it there.  Removal is
`list.remove`, the first equal element. -/
def action_delete_task (s : AppState) : AppState :=
  match (get_ordered_tasks s.tasks s.current_group_id).get? s.selected_index with
  | none => s
  | some task =>
    let tasks := s.tasks.erase task
    let remaining := (get_ordered_tasks tasks s.current_group_id).length
    let sel := if s.selected_index ≥ remaining ∧ s.selected_index > 0
               then s.selected_index - 1 else s.selected_index
    clampSelection { s with tasks := tasks, selected_index := sel }

/-- Method `TodoApp.action_toggle_done` (lines 990-997) via
`TaskWidget.toggle_done` (lines 121-129), which flips `done` on the shared
task object (update-by-id, as for editing). -/
def action_toggle_done (s : AppState) : AppState :=
  match get_selected_task s with
  | none => s
  | some task =>
    clampSelection
      { s with tasks := s.tasks.map (fun t =>
          if t.id = task.id then { t with done := !t.done } else t) }

/-- Method `TodoApp.action_new_group` (lines 860-874) with modal input
`input`: a new group takes the next group id and becomes the current
view. -/
def action_new_group (s : AppState) (input : String) : AppState :=
  let result := pyStrip input
  if result = "" then s
  else
    let group : Group := { id := s.next_group_id, name := result }
    { s with groups := s.groups ++ [group],
             next_group_id := s.next_group_id + 1,
             current_group_id := some group.id,
             selected_index := 0 }

/-- Method `TodoApp._rename_group` (lines 893-905) on group `g` with
modal input `input`: renames in place (by unique id) when the stripped
input is non-empty. -/
def rename_group (s : AppState) (g : Group) (input : String) : AppState :=
  let result := pyStrip input
  if result = "" then s
  else
    { s with groups := s.groups.map (fun h =>
        if h.id = g.id then { h with name := result } else h) }

/-- The confirmed branch of `TodoApp._delete_group` (lines 907-923):
drops every task of the group, removes the group (`list.remove`, the first
equal element), and resets the view to `None` and the selection to 0. -/
def delete_group_confirmed (s : AppState) (group : Group) : AppState :=
  { s with tasks := s.tasks.filter (fun t => !(t.group_id == some group.id)),
           groups := s.groups.erase group,
           current_group_id := none,
           selected_index := 0 }

/-- The group lookup of `TodoApp.action_group_options` (lines 878-883):
`next((g for g in self.groups if g.id == self.current_group_id), None)`,
with the early return on a `None` view. -/
def current_group (s : AppState) : Option Group :=
  match s.current_group_id with
  | none => none
  | some cid => s.groups.find? (fun g => g.id == cid)

/-- Method `TodoApp.action_group_options` (lines 876-891) followed by the
delete choice and confirmation: only the current group can be deleted. -/
def action_delete_current_group (s : AppState) : AppState :=
  match current_group s with
  | none => s
  | some g => delete_group_confirmed s g

/-- Method `TodoApp.action_group_options` followed by the rename
choice. -/
def action_rename_current_group (s : AppState) (input : String) : AppState :=
  match current_group s with
  | none => s
  | some g => rename_group s g input

/-- Method `TodoApp.action_prev_group` (lines 777-786).  Python computes
`(idx - 1) % len` with non-negative modulo; `idx + len - 1` is the same
index.  Also, `list.index` finds the first occurrence of the current view
in `[None] + group ids`; in every reachable state it is present
(`findIdx` and the indexing below then agree with Python). -/
def action_prev_group (s : AppState) : AppState :=
  let group_ids := none :: s.groups.map (fun g => some g.id)
  let current_idx := group_ids.findIdx (fun x => x == s.current_group_id)
  let new_idx := (current_idx + group_ids.length - 1) % group_ids.length
  { s with current_group_id := group_ids.getD new_idx none,
           selected_index := 0 }

/-- Method `TodoApp.action_next_group` (lines 788-797). -/
def action_next_group (s : AppState) : AppState :=
  let group_ids := none :: s.groups.map (fun g => some g.id)
  let current_idx := group_ids.findIdx (fun x => x == s.current_group_id)
  let new_idx := (current_idx + 1) % group_ids.length
  { s with current_group_id := group_ids.getD new_idx none,
           selected_index := 0 }

/-- Python's `s.lower()`: character-wise lower-casing, on the character
sequence of the string. -/
def pyLower (s : String) : List Char :=
  s.toList.map Char.toLower

/-- Python's `pat in s` substring test on character sequences. -/
def strContainsSub (s pat : List Char) : Bool :=
  decide (pat <:+: s)

/-- Group-name resolution inside the search loop (lines 812-817):
`next((g for g in self.groups if g.id == task.group_id), None)` and the
"Sin grupo" sentinel for a null or dangling group id. -/
def resolveGroupName (groups : List Group) (gid : Option Int) : String :=
  match gid with
  | none => "Sin grupo"
  | some g =>
    match groups.find? (fun h => h.id == g) with
    | some grp => grp.name
    | none => "Sin grupo"

/-- The search loop of `on_search_input` in `TodoApp.action_search`
(lines 806-818): every task whose lowered text contains the lowered query,
paired with its resolved group name, in task-collection order (the loop
appends matches in iteration order, which is the filter of the collection
mapped through the pairing). -/
def action_search_results (tasks : List Task) (groups : List Group)
    (query : String) : List (Task × String) :=
  let query_lower := pyLower query
  (tasks.filter (fun t => strContainsSub (pyLower t.text) query_lower)).map
    (fun t => (t, resolveGroupName groups t.group_id))

/-- One user-level store operation, with the free-text modal inputs (and,
for task creation, the creation timestamp) as parameters. -/
inductive Op where
  | addTask (input now : String) : Op
  | editTask (input : String) : Op
  | deleteTask : Op
  | toggleDone : Op
  | newGroup (input : String) : Op
  | renameGroup (input : String) : Op
  | deleteGroup : Op
  | prevGroup : Op
  | nextGroup : Op

def applyOp (s : AppState) : Op → AppState
  | .addTask input now => action_add_task s input now
  | .editTask input => action_edit_task s input
  | .deleteTask => action_delete_task s
  | .toggleDone => action_toggle_done s
  | .newGroup input => action_new_group s input
  | .renameGroup input => action_rename_current_group s input
  | .deleteGroup => action_delete_current_group s
  | .prevGroup => action_prev_group s
  | .nextGroup => action_next_group s

/-- The state after running `ops` from the fresh store. -/
def runOps (ops : List Op) : AppState :=
  ops.foldl applyOp freshState

/-- A creation-only operation (task or group creation). -/
inductive CreateOp where
  | task (input now : String) : CreateOp
  | group (input : String) : CreateOp

def CreateOp.toOp : CreateOp → Op
  | .task input now => .addTask input now
  | .group input => .newGroup input

/-- The state after a sequence of creations from the fresh store. -/
def runCreates (ops : List CreateOp) : AppState :=
  runOps (ops.map CreateOp.toOp)

/-- Both id counters strictly bound every allocated id. -/
def IdBound (s : AppState) : Prop :=
  (∀ t ∈ s.tasks, t.id < s.next_task_id) ∧
  (∀ g ∈ s.groups, g.id < s.next_group_id)

/-- Every non-null task group reference, and the current view, refer to
an existing group. -/
def GroupRefInv (s : AppState) : Prop :=
  (∀ t ∈ s.tasks, ∀ gid : Int, t.group_id = some gid →
    ∃ g ∈ s.groups, g.id = gid) ∧
  (∀ cid : Int, s.current_group_id = some cid → ∃ g ∈ s.groups, g.id = cid)

/-! ## Theorems -/

theorem get_current_tasks_eq_filter (tasks : List Task) (c : Option Int) :
    get_current_tasks tasks c = tasks.filter (fun t => t.group_id == c) := by
  cases c <;> rfl

/-- C3: for every task collection and view selector, the ordered view
contains exactly the tasks whose `group_id` equals the selector, every
pending task precedes every completed task, and each of the two partitions
equals the corresponding filter of the underlying collection (hence
appears in original insertion order). -/
theorem c3_view_partition (tasks : List Task) (sel : Option Int) :
    (∀ t, t ∈ get_ordered_tasks tasks sel ↔ t ∈ tasks ∧ t.group_id = sel) ∧
    List.Pairwise (fun a b => a.done = true → b.done = true)
      (get_ordered_tasks tasks sel) ∧
    (get_ordered_tasks tasks sel).filter (fun t => !t.done)
      = tasks.filter (fun t => !t.done && (t.group_id == sel)) ∧
    (get_ordered_tasks tasks sel).filter (fun t => t.done)
      = tasks.filter (fun t => t.done && (t.group_id == sel)) := by
  unfold get_ordered_tasks
  rw [get_current_tasks_eq_filter]
  refine ⟨?_, ?_, ?_, ?_⟩
  · intro t
    simp only [List.mem_append, List.mem_filter, beq_iff_eq]
    cases h : t.done <;> simp [h]
  · rw [List.pairwise_append]
    refine ⟨?_, ?_, ?_⟩
    · refine List.pairwise_of_forall_mem_list ?_
      intro a ha b _ hdone
      rw [List.mem_filter] at ha
      have h2 := ha.2
      simp [hdone] at h2
    · refine List.pairwise_of_forall_mem_list ?_
      intro a _ b hb _
      rw [List.mem_filter] at hb
      exact hb.2
    · intro a _ b hb _
      rw [List.mem_filter] at hb
      exact hb.2
  · simp [List.filter_filter]
    intro a _ h1 h2
    rw [h1] at h2
    exact Bool.noConfusion h2
  · simp [List.filter_filter]
    intro a _ h1 h2
    rw [h1] at h2
    exact Bool.noConfusion h2

theorem decodeGroup_encodeGroup (g : Group) :
    decodeGroup (encodeGroup g) = some g := rfl

theorem decodeTask_encodeTask (t : Task) (now : String) (h : t.created_at ≠ "") :
    decodeTask (encodeTask t) now = some t := by
  obtain ⟨id, text, done, ca, gid⟩ := t
  cases gid <;>
    simp_all [decodeTask, encodeTask, jget, List.find?, asInt, asStr, asBool,
      asOptInt, mkTask]

theorem decodeList_map {α : Type} (f : JValue → Option α) (enc : α → JValue)
    (l : List α) (h : ∀ a ∈ l, f (enc a) = some a) :
    decodeList f (l.map enc) = some l := by
  induction l with
  | nil => rfl
  | cons a l ih =>
    simp only [List.map_cons, decodeList]
    rw [h a (by simp), ih (fun b hb => h b (by simp [hb]))]
    rfl

/-- C1: on any store state whose tasks all carry the non-empty timestamp
that serialization writes back verbatim, `save_data` followed by
`load_data` reproduces the same counters, the same groups and the same
tasks, in the same order.  (An empty `created_at` would be restamped by
`Task.__post_init__`, which is why the hypothesis is needed.) -/
theorem c1_save_load_roundtrip (s : AppState) (now : String)
    (h : ∀ t ∈ s.tasks, t.created_at ≠ "") :
    load_data (save_data s) now =
      { tasks := s.tasks, groups := s.groups,
        next_task_id := s.next_task_id, next_group_id := s.next_group_id } := by
  have hg : decodeList decodeGroup (s.groups.map encodeGroup) = some s.groups :=
    decodeList_map _ _ _ (fun g _ => decodeGroup_encodeGroup g)
  have ht : decodeList (fun v => decodeTask v now) (s.tasks.map encodeTask)
      = some s.tasks :=
    decodeList_map _ _ _ (fun t htm => decodeTask_encodeTask t now (h t htm))
  have key : decodeDoc (save_data s) now =
      (decodeList decodeGroup (s.groups.map encodeGroup)).bind (fun groups =>
        (decodeList (fun v => decodeTask v now) (s.tasks.map encodeTask)).bind
          (fun tasks =>
            some { tasks := tasks, groups := groups,
                   next_task_id := s.next_task_id,
                   next_group_id := s.next_group_id })) := rfl
  simp [load_data, key, hg, ht]

theorem c1_save_load_roundtrip_witness :
    (∀ t ∈ (⟨[⟨1, "Buy Milk", false, "05/10 12:00", some 1⟩,
              ⟨2, "Walk dog", true, "05/10 12:05", none⟩],
             [⟨1, "Work"⟩], 3, 2, 0, none⟩ : AppState).tasks,
        t.created_at ≠ "") ∧
    load_data (save_data ⟨[⟨1, "Buy Milk", false, "05/10 12:00", some 1⟩,
                           ⟨2, "Walk dog", true, "05/10 12:05", none⟩],
                          [⟨1, "Work"⟩], 3, 2, 0, none⟩) "07/10 09:00" =
      { tasks := [⟨1, "Buy Milk", false, "05/10 12:00", some 1⟩,
                  ⟨2, "Walk dog", true, "05/10 12:05", none⟩],
        groups := [⟨1, "Work"⟩], next_task_id := 3, next_group_id := 2 } :=
  ⟨by decide,
   c1_save_load_roundtrip
     ⟨[⟨1, "Buy Milk", false, "05/10 12:00", some 1⟩,
       ⟨2, "Walk dog", true, "05/10 12:05", none⟩],
      [⟨1, "Work"⟩], 3, 2, 0, none⟩ "07/10 09:00" (by decide)⟩

/-- C2 (amended): a task record missing `done` loads with `done = false`,
missing `group_id` loads with `group_id = none`, and missing `created_at`
is stamped by `Task.__post_init__` with the current-time string `now`
(not the empty string); a document missing `next_task_id` or
`next_group_id` yields the corresponding counter equal to 1. -/
theorem c2_load_defaults :
    (∀ (fields : List (String × JValue)) (i : Int) (x : String) (now : String),
      jget fields "id" = some (.num i) →
      jget fields "text" = some (.str x) →
      jget fields "done" = none →
      jget fields "created_at" = none →
      jget fields "group_id" = none →
      decodeTask (.obj fields) now =
        some { id := i, text := x, done := false, created_at := now,
               group_id := none }) ∧
    (∀ (o : List (String × JValue)) (now : String),
      jget o "next_task_id" = none → (load_data (.obj o) now).next_task_id = 1) ∧
    (∀ (o : List (String × JValue)) (now : String),
      jget o "next_group_id" = none → (load_data (.obj o) now).next_group_id = 1) := by
  refine ⟨?_, ?_, ?_⟩
  · intro fields i x now h1 h2 h3 h4 h5
    simp [decodeTask, h1, h2, h3, h4, h5, asInt, asStr, mkTask]
  · intro o now h
    have hc : decodeCounter o "next_task_id" = some 1 := by
      simp [decodeCounter, h]
    show (match decodeObj o now with
          | some sd => sd
          | none => { tasks := [], groups := [], next_task_id := 1,
                      next_group_id := 1 }).next_task_id = (1 : Int)
    unfold decodeObj
    rw [hc]
    rcases h2 : decodeCounter o "next_group_id" with _ | ng
    · simp
    rcases h3 : decodeEntries decodeGroup (jget o "groups") with _ | gs
    · simp
    rcases h4 : decodeEntries (fun v => decodeTask v now) (jget o "tasks") with _ | ts
    · simp
    · simp
  · intro o now h
    have hc : decodeCounter o "next_group_id" = some 1 := by
      simp [decodeCounter, h]
    show (match decodeObj o now with
          | some sd => sd
          | none => { tasks := [], groups := [], next_task_id := 1,
                      next_group_id := 1 }).next_group_id = (1 : Int)
    unfold decodeObj
    rw [hc]
    rcases h1 : decodeCounter o "next_task_id" with _ | nt
    · simp
    rcases h3 : decodeEntries decodeGroup (jget o "groups") with _ | gs
    · simp
    rcases h4 : decodeEntries (fun v => decodeTask v now) (jget o "tasks") with _ | ts
    · simp
    · simp

theorem c2_load_defaults_witness :
    decodeTask (.obj [("id", .num 2), ("text", .str "y")]) "01/02 03:04"
      = some { id := 2, text := "y", done := false, created_at := "01/02 03:04",
               group_id := none } ∧
    (load_data (.obj []) "01/02 03:04").next_task_id = 1 ∧
    (load_data (.obj []) "01/02 03:04").next_group_id = 1 :=
  ⟨c2_load_defaults.1 [("id", .num 2), ("text", .str "y")] 2 "y" "01/02 03:04"
      rfl rfl rfl rfl rfl,
   c2_load_defaults.2.1 [] "01/02 03:04" rfl,
   c2_load_defaults.2.2 [] "01/02 03:04" rfl⟩

/-- C2 counterexample: loading a well-formed task record that omits
`created_at` yields a task stamped with the current time (here
"05/10 12:00"), not the empty string the claim states. -/
theorem c2_created_at_counterexample :
    (load_data (.obj [("tasks", .arr [.obj [("id", .num 1), ("text", .str "x")]])])
        "05/10 12:00").tasks.map Task.created_at = ["05/10 12:00"] ∧
    ("05/10 12:00" : String) ≠ "" := by
  refine ⟨rfl, by decide⟩

/-- C4: the confirmed deletion of a group `g` of the store removes
exactly the tasks whose `group_id` is `g.id`, removes `g` (and no other
group), shrinks the task collection by exactly the number of matching
tasks, and shrinks the group collection by one. -/
theorem c4_delete_group_cascade (s : AppState) (g : Group)
    (hmem : g ∈ s.groups) (hids : (s.groups.map Group.id).Nodup) :
    (∀ t, t ∈ (delete_group_confirmed s g).tasks ↔
        t ∈ s.tasks ∧ t.group_id ≠ some g.id) ∧
    g ∉ (delete_group_confirmed s g).groups ∧
    (∀ h, h ≠ g → (h ∈ (delete_group_confirmed s g).groups ↔ h ∈ s.groups)) ∧
    (delete_group_confirmed s g).tasks.length
      + (s.tasks.filter (fun t => t.group_id == some g.id)).length
      = s.tasks.length ∧
    (delete_group_confirmed s g).groups.length + 1 = s.groups.length := by
  have hnd : s.groups.Nodup := List.Nodup.of_map Group.id hids
  refine ⟨?_, ?_, ?_, ?_, ?_⟩
  · intro t
    simp [delete_group_confirmed, List.mem_filter]
  · exact fun hx => hnd.not_mem_erase hx
  · intro h hne
    exact List.mem_erase_of_ne hne
  · have := List.length_eq_length_filter_add
      (l := s.tasks) (fun t => t.group_id == some g.id)
    simp only [delete_group_confirmed]
    omega
  · have h1 : (s.groups.erase g).length = s.groups.length - 1 :=
      List.length_erase_of_mem hmem
    have h2 : 0 < s.groups.length := List.length_pos_of_mem hmem
    simp only [delete_group_confirmed]
    omega

theorem c4_delete_group_cascade_witness :
    (delete_group_confirmed
        ⟨[⟨1, "a", false, "05/10 12:00", some 1⟩,
          ⟨2, "b", false, "05/10 12:01", none⟩,
          ⟨3, "c", true, "05/10 12:02", some 1⟩,
          ⟨4, "d", false, "05/10 12:03", some 2⟩],
         [⟨1, "Work"⟩, ⟨2, "Home"⟩], 5, 3, 0, some 1⟩
        ⟨1, "Work"⟩).tasks.length
      + ((⟨[⟨1, "a", false, "05/10 12:00", some 1⟩,
            ⟨2, "b", false, "05/10 12:01", none⟩,
            ⟨3, "c", true, "05/10 12:02", some 1⟩,
            ⟨4, "d", false, "05/10 12:03", some 2⟩],
           [⟨1, "Work"⟩, ⟨2, "Home"⟩], 5, 3, 0, some 1⟩ : AppState).tasks.filter
          (fun t => t.group_id == some (⟨1, "Work"⟩ : Group).id)).length
      = (⟨[⟨1, "a", false, "05/10 12:00", some 1⟩,
           ⟨2, "b", false, "05/10 12:01", none⟩,
           ⟨3, "c", true, "05/10 12:02", some 1⟩,
           ⟨4, "d", false, "05/10 12:03", some 2⟩],
          [⟨1, "Work"⟩, ⟨2, "Home"⟩], 5, 3, 0, some 1⟩ : AppState).tasks.length
    ∧ (⟨1, "Work"⟩ : Group) ∉ (delete_group_confirmed
        ⟨[⟨1, "a", false, "05/10 12:00", some 1⟩,
          ⟨2, "b", false, "05/10 12:01", none⟩,
          ⟨3, "c", true, "05/10 12:02", some 1⟩,
          ⟨4, "d", false, "05/10 12:03", some 2⟩],
         [⟨1, "Work"⟩, ⟨2, "Home"⟩], 5, 3, 0, some 1⟩
        ⟨1, "Work"⟩).groups := by
  have h := c4_delete_group_cascade
    ⟨[⟨1, "a", false, "05/10 12:00", some 1⟩,
      ⟨2, "b", false, "05/10 12:01", none⟩,
      ⟨3, "c", true, "05/10 12:02", some 1⟩,
      ⟨4, "d", false, "05/10 12:03", some 2⟩],
     [⟨1, "Work"⟩, ⟨2, "Home"⟩], 5, 3, 0, some 1⟩
    ⟨1, "Work"⟩ (by decide) (by decide)
  exact ⟨h.2.2.2.1, h.2.1⟩

/-- C10: the confirmed group deletion sets the current view to `None`
unconditionally (line 915), whether or not the deleted group was the
current view. -/
theorem c10_delete_group_resets_view (s : AppState) (g : Group)
    (hmem : g ∈ s.groups) :
    (delete_group_confirmed s g).current_group_id = none := rfl

theorem c10_delete_group_resets_view_witness :
    (⟨1, "a"⟩ : Group) ∈
      (⟨[], [⟨1, "a"⟩, ⟨2, "b"⟩], 1, 3, 0, some 2⟩ : AppState).groups ∧
    (⟨[], [⟨1, "a"⟩, ⟨2, "b"⟩], 1, 3, 0, some 2⟩ : AppState).current_group_id
      ≠ some 1 ∧
    (delete_group_confirmed ⟨[], [⟨1, "a"⟩, ⟨2, "b"⟩], 1, 3, 0, some 2⟩
        ⟨1, "a"⟩).current_group_id = none :=
  ⟨by decide, by decide,
   c10_delete_group_resets_view ⟨[], [⟨1, "a"⟩, ⟨2, "b"⟩], 1, 3, 0, some 2⟩
     ⟨1, "a"⟩ (by decide)⟩

/-- C5: for a non-empty search term, the results are exactly the tasks
whose lowered text contains the lowered term as a substring, in the task
collection's order (the projection to tasks is a sublist of the
collection), each paired with the name resolved for its group id — the
"Sin grupo" sentinel for a null id or an id matching no group, the
group's name otherwise. -/
theorem c5_search (tasks : List Task) (groups : List Group) (query : String)
    (hq : query ≠ "") :
    (∀ t name, (t, name) ∈ action_search_results tasks groups query ↔
       t ∈ tasks ∧ pyLower query <:+: pyLower t.text ∧
       name = resolveGroupName groups t.group_id) ∧
    List.Sublist ((action_search_results tasks groups query).map Prod.fst)
      tasks ∧
    resolveGroupName groups none = "Sin grupo" ∧
    (∀ gid : Int, (∀ g ∈ groups, g.id ≠ gid) →
       resolveGroupName groups (some gid) = "Sin grupo") ∧
    (∀ (gid : Int) (g : Group), g ∈ groups → g.id = gid →
       (groups.map Group.id).Nodup →
       resolveGroupName groups (some gid) = g.name) := by
  refine ⟨?_, ?_, rfl, ?_, ?_⟩
  · intro t name
    simp only [action_search_results, List.mem_map, List.mem_filter,
      strContainsSub, decide_eq_true_eq, Prod.mk.injEq]
    constructor
    · rintro ⟨a, ⟨ha, hp⟩, rfl, rfl⟩
      exact ⟨ha, hp, rfl⟩
    · rintro ⟨ht, hp, rfl⟩
      exact ⟨t, ⟨ht, hp⟩, rfl, rfl⟩
  · have : (action_search_results tasks groups query).map Prod.fst
        = tasks.filter
            (fun t => strContainsSub (pyLower t.text) (pyLower query)) := by
      simp only [action_search_results, List.map_map]
      exact List.map_id _
    rw [this]
    exact List.filter_sublist tasks
  · intro gid hno
    show (match groups.find? (fun h => h.id == gid) with
          | some grp => grp.name
          | none => "Sin grupo") = "Sin grupo"
    cases hf : groups.find? (fun h => h.id == gid) with
    | none => rfl
    | some grp =>
      have h1 : (grp.id == gid) = true :=
        @List.find?_some Group (fun h => h.id == gid) grp groups hf
      have h2 : grp ∈ groups :=
        @List.mem_of_find?_eq_some Group (fun h => h.id == gid) grp groups hf
      exact absurd (by simpa using h1) (hno grp h2)
  · intro gid g hg hid hnodup
    show (match groups.find? (fun h => h.id == gid) with
          | some grp => grp.name
          | none => "Sin grupo") = g.name
    cases hf : groups.find? (fun h => h.id == gid) with
    | none =>
      have := List.find?_eq_none.mp hf g hg
      simp [hid] at this
    | some grp =>
      have h1 : (grp.id == gid) = true :=
        @List.find?_some Group (fun h => h.id == gid) grp groups hf
      have h2 : grp ∈ groups :=
        @List.mem_of_find?_eq_some Group (fun h => h.id == gid) grp groups hf
      have : g = grp :=
        List.inj_on_of_nodup_map hnodup hg h2
          (by rw [hid]; exact (beq_iff_eq.mp h1).symm)
      rw [this]

theorem c5_search_witness :
    ((⟨1, "Buy Milk", false, "05/10 12:00", none⟩ : Task), "Sin grupo")
      ∈ action_search_results
          [⟨1, "Buy Milk", false, "05/10 12:00", none⟩,
           ⟨2, "Walk dog", false, "05/10 12:01", some 5⟩]
          [] "milk" ∧
    ((⟨2, "Walk dog", false, "05/10 12:01", some 5⟩ : Task), "Sin grupo")
      ∉ action_search_results
          [⟨1, "Buy Milk", false, "05/10 12:00", none⟩,
           ⟨2, "Walk dog", false, "05/10 12:01", some 5⟩]
          [] "milk" :=
  ⟨((c5_search
      [⟨1, "Buy Milk", false, "05/10 12:00", none⟩,
       ⟨2, "Walk dog", false, "05/10 12:01", some 5⟩]
      [] "milk" (by decide)).1 _ _).mpr ⟨by decide, by decide, by decide⟩,
   fun hmem => by
    have h := ((c5_search
      [⟨1, "Buy Milk", false, "05/10 12:00", none⟩,
       ⟨2, "Walk dog", false, "05/10 12:01", some 5⟩]
      [] "milk" (by decide)).1 _ _).mp hmem
    exact absurd h.2.1 (by decide)⟩

theorem clampSelection_tasks (s : AppState) :
    (clampSelection s).tasks = s.tasks := by
  unfold clampSelection
  by_cases h : (get_ordered_tasks s.tasks s.current_group_id).isEmpty <;>
    simp [h]

theorem clampSelection_groups (s : AppState) :
    (clampSelection s).groups = s.groups := by
  unfold clampSelection
  by_cases h : (get_ordered_tasks s.tasks s.current_group_id).isEmpty <;>
    simp [h]

theorem clampSelection_next_task_id (s : AppState) :
    (clampSelection s).next_task_id = s.next_task_id := by
  unfold clampSelection
  by_cases h : (get_ordered_tasks s.tasks s.current_group_id).isEmpty <;>
    simp [h]

theorem clampSelection_next_group_id (s : AppState) :
    (clampSelection s).next_group_id = s.next_group_id := by
  unfold clampSelection
  by_cases h : (get_ordered_tasks s.tasks s.current_group_id).isEmpty <;>
    simp [h]

theorem clampSelection_current_group_id (s : AppState) :
    (clampSelection s).current_group_id = s.current_group_id := by
  unfold clampSelection
  by_cases h : (get_ordered_tasks s.tasks s.current_group_id).isEmpty <;>
    simp [h]

/-- C8: when the stripped input is empty, editing mutates nothing at
all; otherwise editing the selected task replaces only that task's text,
leaving its `id`, `done`, `created_at` and `group_id`, every other task
(pointwise, at every position), the groups, the counters, the view and
the selection unchanged. -/
theorem c8_edit_task_frame (s : AppState) (input : String) :
    (pyStrip input = "" → action_edit_task s input = s) ∧
    (∀ task, get_selected_task s = some task →
      (action_edit_task s input).groups = s.groups ∧
      (action_edit_task s input).next_task_id = s.next_task_id ∧
      (action_edit_task s input).next_group_id = s.next_group_id ∧
      (action_edit_task s input).current_group_id = s.current_group_id ∧
      (action_edit_task s input).selected_index = s.selected_index ∧
      (action_edit_task s input).tasks.length = s.tasks.length ∧
      (∀ i u, s.tasks.get? i = some u →
        ∃ v, (action_edit_task s input).tasks.get? i = some v ∧
          v.id = u.id ∧ v.done = u.done ∧ v.created_at = u.created_at ∧
          v.group_id = u.group_id ∧
          (u.id ≠ task.id → v = u) ∧
          (u.id = task.id → pyStrip input ≠ "" → v.text = pyStrip input))) := by
  constructor
  · intro h
    unfold action_edit_task
    cases hsel : get_selected_task s with
    | none => rfl
    | some task => simp [h]
  · intro task htask
    by_cases h : pyStrip input = ""
    · have hs : action_edit_task s input = s := by
        unfold action_edit_task
        rw [htask]
        simp [h]
      rw [hs]
      refine ⟨rfl, rfl, rfl, rfl, rfl, rfl, ?_⟩
      intro i u hu
      exact ⟨u, hu, rfl, rfl, rfl, rfl, fun _ => rfl, fun _ hne => absurd h hne⟩
    · have hs : action_edit_task s input =
          { s with tasks := s.tasks.map (fun t =>
              if t.id = task.id then { t with text := pyStrip input } else t) } := by
        unfold action_edit_task
        rw [htask]
        simp [h]
      rw [hs]
      refine ⟨rfl, rfl, rfl, rfl, rfl, by simp, ?_⟩
      intro i u hu
      have hv : (s.tasks.map (fun t =>
          if t.id = task.id then { t with text := pyStrip input } else t)).get? i
          = some (if u.id = task.id
                  then { u with text := pyStrip input } else u) := by
        rw [List.get?_map, hu]
        rfl
      by_cases hid : u.id = task.id
      · exact ⟨{ u with text := pyStrip input },
          by rw [hv]; simp [hid],
          rfl, rfl, rfl, rfl, fun hne => absurd hid hne, fun _ _ => rfl⟩
      · exact ⟨u, by rw [hv]; simp [hid],
          rfl, rfl, rfl, rfl, fun _ => rfl, fun heq _ => absurd heq hid⟩

theorem c8_edit_task_frame_witness :
    action_edit_task
        ⟨[⟨1, "old", false, "05/10 12:00", none⟩], [], 2, 1, 0, none⟩ "  "
      = ⟨[⟨1, "old", false, "05/10 12:00", none⟩], [], 2, 1, 0, none⟩ ∧
    (action_edit_task
        ⟨[⟨1, "old", false, "05/10 12:00", none⟩], [], 2, 1, 0, none⟩
        " new ").groups = [] ∧
    (∃ v, (action_edit_task
        ⟨[⟨1, "old", false, "05/10 12:00", none⟩], [], 2, 1, 0, none⟩
        " new ").tasks.get? 0 = some v ∧
      v.id = 1 ∧ v.done = false ∧ v.created_at = "05/10 12:00" ∧
      v.group_id = none ∧ v.text = pyStrip " new ") := by
  refine ⟨(c8_edit_task_frame
      ⟨[⟨1, "old", false, "05/10 12:00", none⟩], [], 2, 1, 0, none⟩ "  ").1
      (by decide), ?_, ?_⟩
  all_goals
    have h := (c8_edit_task_frame
        ⟨[⟨1, "old", false, "05/10 12:00", none⟩], [], 2, 1, 0, none⟩
        " new ").2 ⟨1, "old", false, "05/10 12:00", none⟩ (by decide)
  · exact h.1
  · obtain ⟨v, hv, hid, hdone, hca, hgid, _, htext⟩ :=
      h.2.2.2.2.2.2 0 ⟨1, "old", false, "05/10 12:00", none⟩ (by decide)
    exact ⟨v, hv, hid, hdone, hca, hgid, htext rfl (by decide)⟩

/-- C9: toggling the selected task's `done` flag changes exactly that one
boolean on exactly that task: the task keeps its position (pointwise
correspondence at every index), its other fields, and every other task,
the groups, the counters and the view are unchanged; the underlying
collection is not reordered (moving between the pending and completed
partitions is solely the view computation's doing). -/
theorem c9_toggle_done_frame (s : AppState) (task : Task)
    (htask : get_selected_task s = some task) :
    (action_toggle_done s).groups = s.groups ∧
    (action_toggle_done s).next_task_id = s.next_task_id ∧
    (action_toggle_done s).next_group_id = s.next_group_id ∧
    (action_toggle_done s).current_group_id = s.current_group_id ∧
    (action_toggle_done s).tasks.length = s.tasks.length ∧
    (∀ i u, s.tasks.get? i = some u →
      ∃ v, (action_toggle_done s).tasks.get? i = some v ∧
        v.id = u.id ∧ v.text = u.text ∧ v.created_at = u.created_at ∧
        v.group_id = u.group_id ∧
        (u.id = task.id → v.done = !u.done) ∧
        (u.id ≠ task.id → v = u)) := by
  have hs : action_toggle_done s = clampSelection
      { s with tasks := s.tasks.map (fun t =>
          if t.id = task.id then { t with done := !t.done } else t) } := by
    unfold action_toggle_done
    rw [htask]
  rw [hs]
  refine ⟨by rw [clampSelection_groups], by rw [clampSelection_next_task_id],
    by rw [clampSelection_next_group_id],
    by rw [clampSelection_current_group_id],
    by rw [clampSelection_tasks]; simp, ?_⟩
  intro i u hu
  have hv : ((clampSelection
      { s with tasks := s.tasks.map (fun t =>
          if t.id = task.id then { t with done := !t.done } else t) }).tasks).get? i
      = some (if u.id = task.id then { u with done := !u.done } else u) := by
    rw [clampSelection_tasks, List.get?_map, hu]
    rfl
  by_cases hid : u.id = task.id
  · exact ⟨{ u with done := !u.done },
      by rw [hv]; simp [hid],
      rfl, rfl, rfl, rfl, fun _ => rfl, fun hne => absurd hid hne⟩
  · exact ⟨u, by rw [hv]; simp [hid],
      rfl, rfl, rfl, rfl, fun heq => absurd heq hid, fun _ => rfl⟩

theorem c9_toggle_done_frame_witness :
    (action_toggle_done
        ⟨[⟨1, "a", false, "05/10 12:00", none⟩,
          ⟨2, "b", true, "05/10 12:01", none⟩], [], 3, 1, 0, none⟩).groups
      = [] ∧
    (∃ v, (action_toggle_done
        ⟨[⟨1, "a", false, "05/10 12:00", none⟩,
          ⟨2, "b", true, "05/10 12:01", none⟩], [], 3, 1, 0, none⟩).tasks.get? 0
        = some v ∧ v.done = !false) ∧
    (∃ v, (action_toggle_done
        ⟨[⟨1, "a", false, "05/10 12:00", none⟩,
          ⟨2, "b", true, "05/10 12:01", none⟩], [], 3, 1, 0, none⟩).tasks.get? 1
        = some v ∧ v = ⟨2, "b", true, "05/10 12:01", none⟩) := by
  have h := c9_toggle_done_frame
    ⟨[⟨1, "a", false, "05/10 12:00", none⟩,
      ⟨2, "b", true, "05/10 12:01", none⟩], [], 3, 1, 0, none⟩
    ⟨1, "a", false, "05/10 12:00", none⟩ (by decide)
  refine ⟨h.1, ?_, ?_⟩
  · obtain ⟨v, hv, _, _, _, _, hflip, _⟩ :=
      h.2.2.2.2.2 0 ⟨1, "a", false, "05/10 12:00", none⟩ (by decide)
    exact ⟨v, hv, hflip rfl⟩
  · obtain ⟨v, hv, _, _, _, _, _, hsame⟩ :=
      h.2.2.2.2.2 1 ⟨2, "b", true, "05/10 12:01", none⟩ (by decide)
    exact ⟨v, hv, hsame (by decide)⟩

theorem action_add_task_of_ne (s : AppState) (input now : String)
    (h : pyStrip input ≠ "") :
    action_add_task s input now = clampSelection
      { s with
        tasks := s.tasks ++
          [mkTask s.next_task_id (pyStrip input) false ""
            s.current_group_id now],
        next_task_id := s.next_task_id + 1,
        selected_index :=
          ((get_current_tasks
              (s.tasks ++
                [mkTask s.next_task_id (pyStrip input) false ""
                  s.current_group_id now])
              s.current_group_id).filter (fun t => !t.done)).length - 1 } := by
  unfold action_add_task
  simp [h]

theorem action_add_task_of_empty (s : AppState) (input now : String)
    (h : pyStrip input = "") :
    action_add_task s input now = s := by
  unfold action_add_task
  simp [h]

theorem action_new_group_of_ne (s : AppState) (input : String)
    (h : pyStrip input ≠ "") :
    action_new_group s input =
      { s with
        groups := s.groups ++
          [{ id := s.next_group_id, name := pyStrip input }],
        next_group_id := s.next_group_id + 1,
        current_group_id := some s.next_group_id,
        selected_index := 0 } := by
  unfold action_new_group
  simp [h]

theorem action_new_group_of_empty (s : AppState) (input : String)
    (h : pyStrip input = "") :
    action_new_group s input = s := by
  unfold action_new_group
  simp [h]

theorem idBound_add_task (s : AppState) (input now : String) (h : IdBound s) :
    IdBound (action_add_task s input now) := by
  by_cases he : pyStrip input = ""
  · rw [action_add_task_of_empty s input now he]
    exact h
  · rw [action_add_task_of_ne s input now he]
    constructor
    · intro t ht
      rw [clampSelection_tasks] at ht
      rw [clampSelection_next_task_id]
      rcases List.mem_append.mp ht with h1 | h2
      · have := h.1 t h1
        show t.id < s.next_task_id + 1
        omega
      · have heq : t = mkTask s.next_task_id (pyStrip input) false ""
            s.current_group_id now := by simpa using h2
        rw [heq]
        show s.next_task_id < s.next_task_id + 1
        omega
    · intro g hg
      rw [clampSelection_groups] at hg
      rw [clampSelection_next_group_id]
      exact h.2 g hg

theorem idBound_new_group (s : AppState) (input : String) (h : IdBound s) :
    IdBound (action_new_group s input) := by
  by_cases he : pyStrip input = ""
  · rw [action_new_group_of_empty s input he]
    exact h
  · rw [action_new_group_of_ne s input he]
    constructor
    · intro t ht
      exact h.1 t ht
    · intro g hg
      rcases List.mem_append.mp hg with h1 | h2
      · have := h.2 g h1
        show g.id < s.next_group_id + 1
        omega
      · have heq : g = { id := s.next_group_id, name := pyStrip input } := by
          simpa using h2
        rw [heq]
        show s.next_group_id < s.next_group_id + 1
        omega

theorem idBound_runCreates (ops : List CreateOp) : IdBound (runCreates ops) := by
  have main : ∀ s, IdBound s →
      IdBound (List.foldl applyOp s (ops.map CreateOp.toOp)) := by
    induction ops with
    | nil => intro s h; exact h
    | cons op ops ih =>
      intro s h
      simp only [List.map_cons, List.foldl_cons]
      apply ih
      cases op with
      | task input now => exact idBound_add_task s input now h
      | group input => exact idBound_new_group s input h
  exact main freshState
    ⟨fun t ht => absurd ht (List.not_mem_nil t),
     fun g hg => absurd hg (List.not_mem_nil g)⟩

/-- C6 (amended): along any sequence of creations from the fresh store,
the task counter strictly exceeds every existing task id and the group
counter strictly exceeds every existing group id, and a successful
creation appends an entity carrying the counter's value — so each new
task id is strictly greater than every previously allocated task id, and
likewise for groups.  The two counters are independent, so a task id may
equal a group id (see the counterexample). -/
theorem c6_monotonic_ids (ops : List CreateOp) (input now : String)
    (h : pyStrip input ≠ "") :
    (∀ t ∈ (runCreates ops).tasks, t.id < (runCreates ops).next_task_id) ∧
    (∀ g ∈ (runCreates ops).groups, g.id < (runCreates ops).next_group_id) ∧
    (action_add_task (runCreates ops) input now).tasks
      = (runCreates ops).tasks ++
        [mkTask (runCreates ops).next_task_id (pyStrip input) false ""
          (runCreates ops).current_group_id now] ∧
    (action_new_group (runCreates ops) input).groups
      = (runCreates ops).groups ++
        [{ id := (runCreates ops).next_group_id, name := pyStrip input }] := by
  have hb := idBound_runCreates ops
  refine ⟨hb.1, hb.2, ?_, ?_⟩
  · rw [action_add_task_of_ne _ input now h, clampSelection_tasks]
  · rw [action_new_group_of_ne _ input h]

theorem c6_monotonic_ids_witness :
    (∀ t ∈ (runCreates [CreateOp.task "a" "01/01 00:00"]).tasks,
      t.id < (runCreates [CreateOp.task "a" "01/01 00:00"]).next_task_id) ∧
    (action_add_task (runCreates [CreateOp.task "a" "01/01 00:00"])
        "b" "01/01 00:01").tasks
      = (runCreates [CreateOp.task "a" "01/01 00:00"]).tasks ++
        [mkTask (runCreates [CreateOp.task "a" "01/01 00:00"]).next_task_id
          (pyStrip "b") false ""
          (runCreates [CreateOp.task "a" "01/01 00:00"]).current_group_id
          "01/01 00:01"] := by
  have h := c6_monotonic_ids [CreateOp.task "a" "01/01 00:00"]
    "b" "01/01 00:01" (by decide)
  exact ⟨h.1, h.2.2.1⟩

/-- C6 counterexample: the task and group counters are independent and
both start at 1, so after creating a group and then a task from the fresh
store the task's id equals the group's id (both are 1) — allocated task
ids and group ids do collide. -/
theorem c6_id_collision_counterexample :
    ∃ t ∈ (runCreates [CreateOp.group "a",
        CreateOp.task "x" "05/10 12:00"]).tasks,
      ∃ g ∈ (runCreates [CreateOp.group "a",
          CreateOp.task "x" "05/10 12:00"]).groups,
        t.id = g.id := by decide

theorem groupRefInv_clamp (s : AppState) (h : GroupRefInv s) :
    GroupRefInv (clampSelection s) := by
  constructor
  · intro t ht gid hgid
    rw [clampSelection_tasks] at ht
    rw [clampSelection_groups]
    exact h.1 t ht gid hgid
  · intro cid hc
    rw [clampSelection_current_group_id] at hc
    rw [clampSelection_groups]
    exact h.2 cid hc

theorem groupRefInv_map_tasks (s : AppState) (f : Task → Task)
    (hf : ∀ t, (f t).group_id = t.group_id) (h : GroupRefInv s) :
    GroupRefInv { s with tasks := s.tasks.map f } := by
  constructor
  · intro t ht gid hgid
    obtain ⟨u, hu, rfl⟩ := List.mem_map.mp ht
    rw [hf u] at hgid
    exact h.1 u hu gid hgid
  · intro cid hc
    exact h.2 cid hc

theorem groupRefInv_map_groups (s : AppState) (f : Group → Group)
    (hf : ∀ g, (f g).id = g.id) (h : GroupRefInv s) :
    GroupRefInv { s with groups := s.groups.map f } := by
  constructor
  · intro t ht gid hgid
    obtain ⟨g, hg, hid⟩ := h.1 t ht gid hgid
    exact ⟨f g, List.mem_map_of_mem f hg, by rw [hf g, hid]⟩
  · intro cid hc
    obtain ⟨g, hg, hid⟩ := h.2 cid hc
    exact ⟨f g, List.mem_map_of_mem f hg, by rw [hf g, hid]⟩

theorem groupIds_getD_valid (groups : List Group) (i : Nat) :
    (none :: groups.map (fun g => some g.id)).getD i none = none ∨
    ∃ g ∈ groups,
      (none :: groups.map (fun g => some g.id)).getD i none = some g.id := by
  by_cases hi : i < (none :: groups.map (fun g => some g.id)).length
  · have hmem : (none :: groups.map (fun g => some g.id)).getD i none
        ∈ (none :: groups.map (fun g => some g.id)) := by
      rw [List.getD_eq_getElem?_getD, List.getElem?_eq_getElem hi]
      exact List.getElem_mem hi
    rcases List.mem_cons.mp hmem with h0 | h1
    · left; exact h0
    · right
      obtain ⟨g, hg, he⟩ := List.mem_map.mp h1
      exact ⟨g, hg, he.symm⟩
  · left
    exact List.getD_eq_default _ _ (Nat.le_of_not_lt hi)

theorem action_prev_group_tasks (s : AppState) :
    (action_prev_group s).tasks = s.tasks := rfl

theorem action_prev_group_groups (s : AppState) :
    (action_prev_group s).groups = s.groups := rfl

theorem action_next_group_tasks (s : AppState) :
    (action_next_group s).tasks = s.tasks := rfl

theorem action_next_group_groups (s : AppState) :
    (action_next_group s).groups = s.groups := rfl

theorem action_prev_group_current (s : AppState) :
    (action_prev_group s).current_group_id = none ∨
    ∃ g ∈ s.groups, (action_prev_group s).current_group_id = some g.id :=
  groupIds_getD_valid s.groups _

theorem action_next_group_current (s : AppState) :
    (action_next_group s).current_group_id = none ∨
    ∃ g ∈ s.groups, (action_next_group s).current_group_id = some g.id :=
  groupIds_getD_valid s.groups _

theorem groupRefInv_applyOp (s : AppState) (op : Op) (h : GroupRefInv s) :
    GroupRefInv (applyOp s op) := by
  cases op with
  | addTask input now =>
    show GroupRefInv (action_add_task s input now)
    by_cases he : pyStrip input = ""
    · rw [action_add_task_of_empty s input now he]
      exact h
    · rw [action_add_task_of_ne s input now he]
      apply groupRefInv_clamp
      constructor
      · intro t ht gid hgid
        rcases List.mem_append.mp ht with h1 | h2
        · exact h.1 t h1 gid hgid
        · have heq : t = mkTask s.next_task_id (pyStrip input) false ""
              s.current_group_id now := by simpa using h2
          rw [heq] at hgid
          exact h.2 gid hgid
      · intro cid hc
        exact h.2 cid hc
  | editTask input =>
    show GroupRefInv (action_edit_task s input)
    unfold action_edit_task
    cases hsel : get_selected_task s with
    | none => exact h
    | some task =>
      by_cases he : pyStrip input = ""
      · simpa [he] using h
      · have hmap := groupRefInv_map_tasks s
          (fun t => if t.id = task.id then { t with text := pyStrip input }
                    else t)
          (fun t => by by_cases ht : t.id = task.id <;> simp [ht]) h
        simpa [he] using hmap
  | deleteTask =>
    show GroupRefInv (action_delete_task s)
    unfold action_delete_task
    cases hsel : (get_ordered_tasks s.tasks s.current_group_id).get?
        s.selected_index with
    | none => exact h
    | some task =>
      apply groupRefInv_clamp
      constructor
      · intro t ht gid hgid
        exact h.1 t (List.mem_of_mem_erase ht) gid hgid
      · intro cid hc
        exact h.2 cid hc
  | toggleDone =>
    show GroupRefInv (action_toggle_done s)
    unfold action_toggle_done
    cases hsel : get_selected_task s with
    | none => exact h
    | some task =>
      exact groupRefInv_clamp _ (groupRefInv_map_tasks s
        (fun t => if t.id = task.id then { t with done := !t.done } else t)
        (fun t => by by_cases ht : t.id = task.id <;> simp [ht]) h)
  | newGroup input =>
    show GroupRefInv (action_new_group s input)
    by_cases he : pyStrip input = ""
    · rw [action_new_group_of_empty s input he]
      exact h
    · rw [action_new_group_of_ne s input he]
      constructor
      · intro t ht gid hgid
        obtain ⟨g, hg, hid⟩ := h.1 t ht gid hgid
        exact ⟨g, List.mem_append_left _ hg, hid⟩
      · intro cid hc
        refine ⟨{ id := s.next_group_id, name := pyStrip input },
          List.mem_append_right _ (by simp), ?_⟩
        exact Option.some.inj hc
  | renameGroup input =>
    show GroupRefInv (action_rename_current_group s input)
    unfold action_rename_current_group
    cases hcg : current_group s with
    | none => exact h
    | some g =>
      show GroupRefInv (rename_group s g input)
      unfold rename_group
      by_cases he : pyStrip input = ""
      · simpa [he] using h
      · have hmap := groupRefInv_map_groups s
          (fun x => if x.id = g.id then { x with name := pyStrip input }
                    else x)
          (fun x => by by_cases hx : x.id = g.id <;> simp [hx]) h
        simpa [he] using hmap
  | deleteGroup =>
    show GroupRefInv (action_delete_current_group s)
    unfold action_delete_current_group
    cases hcg : current_group s with
    | none => exact h
    | some g =>
      show GroupRefInv (delete_group_confirmed s g)
      constructor
      · intro t ht gid hgid
        have ht2 : t ∈ s.tasks.filter
            (fun t => !(t.group_id == some g.id)) := ht
        have hmem := List.mem_filter.mp ht2
        have hne : t.group_id ≠ some g.id := by simpa using hmem.2
        obtain ⟨grp, hgrp, hid⟩ := h.1 t hmem.1 gid hgid
        have hgidne : gid ≠ g.id := fun hh => hne (by rw [hgid, hh])
        have hgne : grp ≠ g := fun hh => hgidne (by rw [← hid, hh])
        exact ⟨grp, (List.mem_erase_of_ne hgne).mpr hgrp, hid⟩
      · intro cid2 hc
        exact absurd hc (by
          show ¬((delete_group_confirmed s g).current_group_id = some cid2)
          intro hh
          exact Option.noConfusion hh)
  | prevGroup =>
    show GroupRefInv (action_prev_group s)
    constructor
    · intro t ht gid hgid
      rw [action_prev_group_tasks] at ht
      rw [action_prev_group_groups]
      exact h.1 t ht gid hgid
    · intro cid hc
      rw [action_prev_group_groups]
      rcases action_prev_group_current s with h0 | ⟨g, hg, he⟩
      · rw [h0] at hc
        exact Option.noConfusion hc
      · rw [he] at hc
        exact ⟨g, hg, Option.some.inj hc⟩
  | nextGroup =>
    show GroupRefInv (action_next_group s)
    constructor
    · intro t ht gid hgid
      rw [action_next_group_tasks] at ht
      rw [action_next_group_groups]
      exact h.1 t ht gid hgid
    · intro cid hc
      rw [action_next_group_groups]
      rcases action_next_group_current s with h0 | ⟨g, hg, he⟩
      · rw [h0] at hc
        exact Option.noConfusion hc
      · rw [he] at hc
        exact ⟨g, hg, Option.some.inj hc⟩

theorem groupRefInv_runOps (ops : List Op) : GroupRefInv (runOps ops) := by
  have main : ∀ s, GroupRefInv s →
      GroupRefInv (List.foldl applyOp s ops) := by
    induction ops with
    | nil => intro s h; exact h
    | cons op ops ih =>
      intro s h
      simp only [List.foldl_cons]
      exact ih _ (groupRefInv_applyOp s op h)
  exact main freshState
    ⟨fun t ht => absurd ht (List.not_mem_nil t),
     fun cid hc => Option.noConfusion hc⟩

/-- C7 (amended): in every state reachable by a sequence of store
operations from the fresh store, every task whose `group_id` is non-null
references a group that exists in the group collection.  (`load_data`
performs no referential validation, so a state loaded from an arbitrary
well-formed file need not satisfy this; see the counterexample.) -/
theorem c7_group_refs_reachable (ops : List Op) :
    ∀ t ∈ (runOps ops).tasks, ∀ gid : Int, t.group_id = some gid →
      ∃ g ∈ (runOps ops).groups, g.id = gid :=
  (groupRefInv_runOps ops).1

theorem c7_group_refs_reachable_witness :
    ∃ g ∈ (runOps [Op.newGroup "g", Op.addTask "x" "01/01 00:00"]).groups,
      g.id = 1 :=
  c7_group_refs_reachable [Op.newGroup "g", Op.addTask "x" "01/01 00:00"]
    ⟨1, "x", false, "01/01 00:00", some 1⟩ (by decide) 1 (by decide)

/-- C7 counterexample: loading a well-formed file whose single task
references group id 5 while the file lists no groups produces a store
state with a dangling reference — `load_data` does not validate
`group_id` against the loaded groups. -/
theorem c7_load_counterexample :
    ∃ t ∈ (load_data (.obj [("tasks", .arr [.obj
          [("id", .num 1), ("text", .str "x"),
           ("group_id", .num 5)]])]) "01/01 00:00").tasks,
      ∃ gid : Int, t.group_id = some gid ∧
        ∀ g ∈ (load_data (.obj [("tasks", .arr [.obj
            [("id", .num 1), ("text", .str "x"),
             ("group_id", .num 5)]])]) "01/01 00:00").groups,
          g.id ≠ gid := by decide

end Todo

